import Mathlib

/-!
Verification of the adversarial image-variant synthesis pipeline
(`src/services/imageService.ts`, cloaking edition) and its batch
orchestrator (`handleGenerate` in the SynthesizerModule), against the
natural-language specification.

Conventions of the shallow embedding:
* JavaScript numbers are modelled as rationals (`ℚ`); canvas pixel bytes
  as naturals in `[0,255]`.
* `Math.random()` is modelled as a stream `ℕ → ℚ` of draws together with
  a cursor, each draw assumed to lie in `[0,1)`.
* `Uint8ClampedArray` element assignment clamps to `[0,255]` and rounds
  to the nearest integer, ties to even, per the WebIDL conversion rules.
* The graphics primitives that cannot be computed outside a browser
  (drawImage, CSS filters, text rendering, toDataURL encoding) are
  abstracted as parameters of the pipeline (`GfxEnv`); everything the
  claims touch (dimension arithmetic, the per-pixel noise loop, config
  resolution, persistence) is translated literally from the source.
-/

/-- `'image/jpeg' | 'image/png'` from `types.ts`. -/
inductive ExportFormat where
  | jpeg
  | png
deriving DecidableEq, Repr

/-- `'pending' | 'processing' | 'completed' | 'failed'` from `types.ts`. -/
inductive VStatus where
  | pending
  | processing
  | completed
  | failed
deriving DecidableEq, Repr

/-- `OverlayConfig` from `types.ts`.  Optional fields are `Option`s.
The source stores `rotation: Math.random() * Math.PI * 2`; since π is
not rational, `rotation` here records the rational coefficient of π
(the angle in units of π radians), keeping the record computable. -/
structure OverlayConfig where
  text : String
  fontFamily : String
  fontSize : ℚ
  color : String
  x : ℚ
  y : ℚ
  rotation : ℚ
  batchNumber : Option String
  showDate : Option Bool
  textureIntensity : Option ℚ
  exportFormat : Option ExportFormat
  upscaleFactor : Option ℚ
  opacity : Option ℚ

/-- `ImageVariant` from `types.ts`. -/
structure ImageVariant where
  id : String
  dataUrl : String
  blobUrl : Option String
  config : OverlayConfig
  detectedPrice : Option ℚ
  detectedShipping : Option ℚ
  status : VStatus
  errorMessage : Option String
  timestamp : Option ℕ
  tags : Option (List String)

/-- The options record accepted by `generateVariant`. -/
structure GenOptions where
  batchNumber : Option String := none
  showDate : Option Bool := none
  textureIntensity : Option ℚ := none
  exportFormat : Option ExportFormat := none
  upscaleFactor : Option ℚ := none
  opacity : Option ℚ := none
  tags : Option (List String) := none
  marketCloaking : Bool := false

/-! ### Randomness model -/

/-- A stream of `Math.random()` draws plus a cursor into it. -/
structure RNG where
  f : ℕ → ℚ
  k : ℕ

/-- Every draw of a real `Math.random()` lies in `[0,1)`. -/
def RNG.Valid (g : RNG) : Prop := ∀ n, 0 ≤ g.f n ∧ g.f n < 1

/-- Consume one draw. -/
def RNG.draw (g : RNG) : ℚ × RNG := (g.f g.k, ⟨g.f, g.k + 1⟩)

theorem RNG.Valid.draw_mem {g : RNG} (h : g.Valid) :
    0 ≤ g.draw.1 ∧ g.draw.1 < 1 := h g.k

theorem RNG.Valid.step {g : RNG} (h : g.Valid) : g.draw.2.Valid := fun n => h n

/-! ### Uint8ClampedArray element conversion -/

/-- Round to nearest, ties to even (the WebIDL clamped conversion).
`Rat.floor` coincides with `⌊·⌋` (`Rat.floor_def`). -/
def roundTiesEven (q : ℚ) : ℤ :=
  let fl := Rat.floor q
  let fr := q - fl
  if fr < 1/2 then fl
  else if 1/2 < fr then fl + 1
  else if fl % 2 = 0 then fl else fl + 1

/-- JavaScript `Math.round`: round half away from zero upwards,
`Math.round(x) = floor(x + 0.5)`. -/
def jsRound (q : ℚ) : ℤ := Rat.floor (q + 1/2)

/-- JavaScript `Math.floor`. -/
def jsFloor (q : ℚ) : ℤ := Rat.floor q

/-- Assignment of a JS number to a `Uint8ClampedArray` element: clamp to
`[0,255]` and round to nearest, ties to even. -/
def clampByte (q : ℚ) : ℕ :=
  (roundTiesEven (min 255 (max 0 q))).toNat

/-- JS `x || d` for an optional numeric `x`: `0` (and absence) falls back
to the default, any other value is kept. -/
def jsOr (x : Option ℚ) (d : ℚ) : ℚ :=
  match x with
  | none => d
  | some v => if v = 0 then d else v

/-! ### Step 3 of the pipeline: noise and textural interference

Literal translation of the loop at `imageService.ts` lines 378–386:

    for (let i = 0; i < data.length; i += 4) {
      const noise = (Math.random() - 0.5) * (noiseLevel * 15);
      data[i]     = Math.min(255, Math.max(0, data[i] + noise));
      data[i + 1] = Math.min(255, Math.max(0, data[i + 1] + noise));
      data[i + 2] = Math.min(255, Math.max(0, data[i + 2] + noise));
      if (i % 100 === 0) data[i+3] = 254 + Math.round(Math.random());
    }

`ImageData` arrays always have length divisible by 4, so the flat array
is consumed four bytes at a time; a (never occurring) trailing group of
fewer than four bytes is left untouched. -/
def noiseLoop (noiseLevel : ℚ) : RNG → ℕ → List ℕ → List ℕ × RNG
  | g, i, r :: gr :: b :: a :: rest =>
    let (u, g1) := g.draw
    let noise := (u - 1/2) * (noiseLevel * 15)
    let r' := clampByte (min 255 (max 0 ((r : ℚ) + noise)))
    let g' := clampByte (min 255 (max 0 ((gr : ℚ) + noise)))
    let b' := clampByte (min 255 (max 0 ((b : ℚ) + noise)))
    let (a', g2) :=
      if i % 100 = 0 then
        let (v, g2) := g1.draw
        ((254 + (jsRound v).toNat, g2))
      else (a, g1)
    let (rest', g3) := noiseLoop noiseLevel g2 (i + 4) rest
    (r' :: g' :: b' :: a' :: rest', g3)
  | g, _, l => (l, g)

/-- The whole noise stage (`imageService.ts` lines 374–387): the
effective level is `options.textureIntensity || 0.05`, and the loop runs
unconditionally. -/
def noiseStage (textureIntensity : Option ℚ) (g : RNG) (data : List ℕ) :
    List ℕ × RNG :=
  noiseLoop (jsOr textureIntensity (1/20)) g 0 data

/-! ### Variant Store

`saveVariantToDB` wraps an IndexedDB object store created with
`keyPath: 'id'`; a `put` inserts or overwrites the record whose key
equals the variant's `id`.  The store contents are modelled as a list of
records, `put` as key-based upsert, `getAll` as reading all records.
Whether the backing transaction commits is environmental, so it is a
boolean parameter `dbOk`; a failed transaction rejects the promise. -/

def Store := List ImageVariant

/-- IndexedDB `store.put` with `keyPath: 'id'`: overwrite the record
with the same key, or append the record if the key is absent. -/
def idbPut : Store → ImageVariant → Store
  | [], v => [v]
  | w :: rest, v => if w.id = v.id then v :: rest else w :: idbPut rest v

/-- `saveVariantToDB` (`imageService.ts` lines 257–272): resolves after
the put transaction completes, rejects if the transaction errors. -/
def saveVariantToDB (dbOk : Bool) (s : Store) (v : ImageVariant) :
    Except String Store :=
  if dbOk then .ok (idbPut s v) else .error "store put rejected"

/-- `getAllVariantsFromDB` (`imageService.ts` lines 274–289). -/
def getAllVariantsFromDB (s : Store) : List ImageVariant := s

/-- `clearAllVariantsFromDB` (`imageService.ts` lines 291–306). -/
def clearAllVariantsFromDB (_s : Store) : Store := []

/-- The record of the object store holding a given key, if any. -/
def findVariant (s : Store) (i : String) : Option ImageVariant :=
  (getAllVariantsFromDB s).find? (fun v => v.id = i)

/-! ### The transform pipeline: `generateVariant` -/

/-- The graphics primitives `generateVariant` uses, which cannot be
computed outside a browser.  Each field abstracts one canvas effect and
receives exactly the numeric parameters the source computes for it. -/
structure GfxEnv where
  /-- Cloaked draw (step 1, cloaking on): `drawImage` under the affine
  transform built from zoom, x/y offsets and micro-rotation. -/
  jitteredDraw : ℕ → ℕ → ℚ → ℚ → ℚ → ℚ → List ℕ
  /-- Plain draw (step 1, cloaking off): `drawImage` at target size. -/
  plainDraw : ℕ → ℕ → List ℕ
  /-- Step 2: redraw through the hue/brightness/contrast filter. -/
  filterRedraw : ℚ → ℚ → ℚ → List ℕ → List ℕ
  /-- Step 4: the pixel effect of `fillText` with the resolved config. -/
  overlayDraw : OverlayConfig → List ℕ → List ℕ
  /-- Step 5: `canvas.toDataURL(format, quality)`. -/
  encode : ExportFormat → ℚ → List ℕ → String
  /-- The `FONTS` candidate list from `constants.ts`. -/
  FONTS : List String
  /-- The `COLORS` candidate list from `constants.ts`. -/
  COLORS : List String

/-- WebIDL `unsigned long` conversion applied by the `canvas.width`
and `canvas.height` setters: truncate towards zero, then wrap mod 2³². -/
def jsToUint32 (q : ℚ) : ℕ :=
  ((if 0 ≤ q then Rat.floor q else -(Rat.floor (-q))) % ((2:ℤ)^32)).toNat

/-- Everything `generateVariant` has produced just before the `await` of
the store put: the variant, the canvas geometry and pixel states. -/
structure Rendered where
  variant : ImageVariant
  width : ℕ
  height : ℕ
  /-- canvas pixels right after step 3 (noise injection) -/
  noised : List ℕ
  /-- final canvas pixels (after the overlay) -/
  pixels : List ℕ
  rng : RNG

/-- The pure part of `generateVariant` (`imageService.ts` lines
310–430): steps 1–5 and the construction of the variant record.  `now`
models the `Date.now()` call at line 428. -/
def renderVariant (env : GfxEnv) (g : RNG) (baseW baseH : ℕ)
    (productName id : String) (opts : GenOptions) (now : ℕ) : Rendered :=
  let scale := jsOr opts.upscaleFactor 1
  let width := jsToUint32 ((baseW : ℚ) * scale)
  let height := jsToUint32 ((baseH : ℚ) * scale)
  -- Step 1: geometric jitter (anti-hash)
  let (px0, g) :=
    if opts.marketCloaking then
      let (u1, g) := g.draw
      let zoom := 1 + u1 * (3/100)
      let (u2, g) := g.draw
      let offsetX := (u2 - 1/2) * ((width : ℚ) * (2/100))
      let (u3, g) := g.draw
      let offsetY := (u3 - 1/2) * ((height : ℚ) * (2/100))
      let (u4, g) := g.draw
      let microRotation := (u4 - 1/2) * (5/1000)
      (env.jitteredDraw width height zoom offsetX offsetY microRotation, g)
    else
      (env.plainDraw width height, g)
  -- Step 2: chromatic shifting (anti-histogram)
  let (px1, g) :=
    if opts.marketCloaking then
      let (u5, g) := g.draw
      let hue := (u5 - 1/2) * 4
      let (u6, g) := g.draw
      let brightness := 1 + (u6 - 1/2) * (4/100)
      let (u7, g) := g.draw
      let contrast := 1 + (u7 - 1/2) * (4/100)
      (env.filterRedraw hue brightness contrast px0, g)
    else (px0, g)
  -- Step 3: noise and textural interference
  let noiseLevel := jsOr opts.textureIntensity (1/20)
  let (px2, g) := noiseLoop noiseLevel g 0 px1
  -- Step 4: overlay generation
  let (uF, g) := g.draw
  let (uS, g) := g.draw
  let (uC, g) := g.draw
  let (uX, g) := g.draw
  let (uY, g) := g.draw
  let (uR, g) := g.draw
  let config : OverlayConfig :=
    { text := productName
      fontFamily := env.FONTS.getD (jsFloor (uF * env.FONTS.length)).toNat ""
      fontSize := (uS * (4/10) + 4/10) * scale * 30
      color := env.COLORS.getD (jsFloor (uC * env.COLORS.length)).toNat ""
      x := (uX * ((baseW : ℚ) * (8/10)) + (baseW : ℚ) * (1/10)) * scale
      y := (uY * ((baseH : ℚ) * (8/10)) + (baseH : ℚ) * (1/10)) * scale
      rotation := uR * 2
      batchNumber := opts.batchNumber
      showDate := opts.showDate
      textureIntensity := opts.textureIntensity
      exportFormat := some (opts.exportFormat.getD .jpeg)
      upscaleFactor := some scale
      opacity := some (opts.opacity.getD (3/100)) }
  let px3 := env.overlayDraw config px2
  -- Step 5: export with unique quantization
  let format := opts.exportFormat.getD .jpeg
  let (uQ, g) := g.draw
  let quality := 88/100 + uQ * (5/100)
  let dataUrl := env.encode format quality px3
  { variant :=
      { id := id
        dataUrl := dataUrl
        blobUrl := some dataUrl
        config := config
        detectedPrice := none
        detectedShipping := none
        status := .pending
        errorMessage := none
        timestamp := some now
        tags := opts.tags }
    width := width
    height := height
    noised := px2
    pixels := px3
    rng := g }

/-- What `generateVariant` resolves with, together with the state it
leaves behind. -/
structure GenResult where
  variant : ImageVariant
  store : Store
  width : ℕ
  height : ℕ
  noised : List ℕ
  pixels : List ℕ
  rng : RNG

/-- `generateVariant` (`imageService.ts` lines 310–434): render, then
`await saveVariantToDB(variant)` — whose rejection propagates, there is
no try/catch around it — then return the variant. -/
def generateVariant (env : GfxEnv) (dbOk : Bool) (g : RNG) (s : Store)
    (baseW baseH : ℕ) (productName id : String) (opts : GenOptions)
    (now : ℕ) : Except String GenResult :=
  let r := renderVariant env g baseW baseH productName id opts now
  match saveVariantToDB dbOk s r.variant with
  | .error e => .error e
  | .ok s' => .ok ⟨r.variant, s', r.width, r.height, r.noised, r.pixels, r.rng⟩

/-! ### Batch orchestrator: `handleGenerate` (SynthesizerModule) -/

/-- The id template of the loop body:
`cloaked-${Date.now()}-${i}`. -/
def mkVariantId (now i : ℕ) : String :=
  "cloaked-" ++ Nat.repr now ++ "-" ++ Nat.repr i

/-- The component state feeding `handleGenerate` (the `useState` cells
of the SynthesizerModule that are passed to `generateVariant`). -/
structure SynthState where
  variantCount : ℕ
  batchNumber : String
  showDate : Bool
  textureIntensity : ℚ
  opacity : ℚ
  marketCloaking : Bool
  exportFormat : ExportFormat
  upscaleFactor : ℚ
  tags : List String

/-- The initial state of those cells.  `batchNumber` is randomized and
`tags` are produced by the tagging collaborator, so both are
parameters; the numeric cells start at `textureIntensity = 0.08`,
`opacity = 0.04`, `upscaleFactor = 1`, `variantCount = 10`, cloaking
on, jpeg export.  The module renders no control that ever calls
`setOpacity`, `setTextureIntensity` or `setUpscaleFactor`, so those
three keep their initial values in every reachable state. -/
def initialSynthState (bn : String) (tags : List String) : SynthState :=
  { variantCount := 10
    batchNumber := bn
    showDate := true
    textureIntensity := 2/25
    opacity := 1/25
    marketCloaking := true
    exportFormat := .jpeg
    upscaleFactor := 1
    tags := tags }

/-- The options object built at the `generateVariant` call site inside
`handleGenerate`. -/
def optsOfState (st : SynthState) : GenOptions :=
  { batchNumber := some st.batchNumber
    showDate := some st.showDate
    textureIntensity := some st.textureIntensity
    opacity := some st.opacity
    exportFormat := some st.exportFormat
    upscaleFactor := some st.upscaleFactor
    tags := some st.tags
    marketCloaking := st.marketCloaking }

/-- The `for` loop inside the `try` of `handleGenerate`, iterating the
remaining `n` items starting at index `i`.  `ts i` models the value of
`Date.now()` during iteration `i` (both calls of the iteration, the id
template and the variant timestamp, see it).  A rejected
`generateVariant` is caught by the surrounding catch: the loop stops,
nothing more is produced, and the abort flag is set.  Returns
(variants pushed, progress values set, store, rng, aborted). -/
def generateLoop (env : GfxEnv) (dbOk : Bool) (baseW baseH : ℕ)
    (productName : String) (opts : GenOptions) (count : ℕ) (ts : ℕ → ℕ) :
    ℕ → ℕ → RNG → Store → List ImageVariant × List ℚ × Store × RNG × Bool
  | _, 0, g, s => ([], [], s, g, false)
  | i, n + 1, g, s =>
    match generateVariant env dbOk g s baseW baseH productName
        (mkVariantId (ts i) i) opts (ts i) with
    | .error _ => ([], [], s, g, true)
    | .ok r =>
      let (vs, ps, s', g', ab) :=
        generateLoop env dbOk baseW baseH productName opts count ts
          (i + 1) n r.rng r.store
      (r.variant :: vs, (((i : ℚ) + 1) / count * 100) :: ps, s', g', ab)

/-- Outcome of one `handleGenerate` run. -/
structure BatchResult where
  /-- what `onVariantsGenerated` received; `[]` when the catch ran and
  the callback was never invoked -/
  surfaced : List ImageVariant
  /-- the `newVariants` accumulator (variants created before any abort) -/
  generated : List ImageVariant
  /-- the successive `setProgress` percentages after the initial 0 -/
  progress : List ℚ
  store : Store
  aborted : Bool

/-- `handleGenerate` (SynthesizerModule lines 105–133): loop
`variantCount` times, push each variant, report progress
`((i+1)/variantCount)*100`; on an exception the catch logs and the
batch is abandoned, so `onVariantsGenerated` never fires. -/
def handleGenerate (env : GfxEnv) (dbOk : Bool) (baseW baseH : ℕ)
    (productName : String) (st : SynthState) (ts : ℕ → ℕ) (g : RNG)
    (s : Store) : BatchResult :=
  let (vs, ps, s', _, ab) :=
    generateLoop env dbOk baseW baseH productName (optsOfState st)
      st.variantCount ts 0 st.variantCount g s
  { surfaced := if ab then [] else vs
    generated := vs
    progress := ps
    store := s'
    aborted := ab }

/-! ### Export filenames -/

/-- The shared extension rule of both export paths:
`v.config.exportFormat === 'image/png' ? 'png' : 'jpg'`. -/
def extOf (fmt : Option ExportFormat) : String :=
  if fmt = some .png then "png" else "jpg"

/-- `v.id.split('-').pop()` — the tail segment of the id. -/
def shortIdOf (v : ImageVariant) : String :=
  (v.id.splitOn "-").getLastD ""

/-- The `Local Filename` cell built per row by `exportToCSV`
(`imageService.ts` lines 465–468). -/
def csvFilename (v : ImageVariant) : String :=
  "cloaked_opt_" ++ shortIdOf v ++ "." ++ extOf v.config.exportFormat

/-- The filename passed to `downloadImage` for each item of
`downloadBatchSequentially` (SynthesizerModule lines 135–155). -/
def batchDownloadFilename (v : ImageVariant) : String :=
  "cloaked-asset-" ++ shortIdOf v ++ "." ++ extOf v.config.exportFormat

/-! ### Store lemmas -/

theorem findVariant_idbPut (s : Store) (v : ImageVariant) (i : String) :
    findVariant (idbPut s v) i =
      if v.id = i then some v else findVariant s i := by
  induction s with
  | nil =>
    by_cases h : v.id = i <;>
      simp [idbPut, findVariant, getAllVariantsFromDB, List.find?, h]
  | cons w rest ih =>
    by_cases hw : w.id = v.id
    · by_cases h : v.id = i
      · simp [idbPut, findVariant, getAllVariantsFromDB, List.find?, hw, h]
      · have hwi : ¬ w.id = i := fun hh => h (hw.symm.trans hh)
        simp [idbPut, findVariant, getAllVariantsFromDB, List.find?, hw, h, hwi]
    · by_cases hwi : w.id = i
      · have hvi : ¬ v.id = i := fun hh => hw (hwi.trans hh.symm)
        have hvi2 : ¬ i = v.id := fun hh => hvi hh.symm
        simp [idbPut, findVariant, getAllVariantsFromDB, List.find?, hw, hwi,
          hvi, hvi2]
      · have ih2 := ih
        simp only [findVariant, getAllVariantsFromDB] at ih2
        by_cases h : v.id = i <;>
          simp [idbPut, findVariant, getAllVariantsFromDB, List.find?, hw, hwi,
            h, ih2]

theorem findVariant_foldl (ops : List ImageVariant) (s : Store) (i : String) :
    findVariant (ops.foldl idbPut s) i =
      (ops.reverse.find? (fun w => w.id = i)).or (findVariant s i) := by
  induction ops generalizing s with
  | nil => simp
  | cons v rest ih =>
    rw [List.foldl_cons, ih, findVariant_idbPut, List.reverse_cons,
      List.find?_append, Option.or_assoc]
    congr 1
    by_cases h : v.id = i <;> simp [List.find?, h]

theorem mem_ids_idbPut {s : Store} {v : ImageVariant} {x : String}
    (h : x ∈ (idbPut s v).map ImageVariant.id) :
    x = v.id ∨ x ∈ s.map ImageVariant.id := by
  induction s with
  | nil => simpa [idbPut] using h
  | cons w rest ih =>
    by_cases hw : w.id = v.id
    · simp only [idbPut, if_pos hw, List.map_cons, List.mem_cons] at h ⊢
      rcases h with h | h
      · exact Or.inl h
      · exact Or.inr (Or.inr h)
    · simp only [idbPut, if_neg hw, List.map_cons, List.mem_cons] at h ⊢
      rcases h with h | h
      · exact Or.inr (Or.inl h)
      · rcases ih h with h | h
        · exact Or.inl h
        · exact Or.inr (Or.inr h)

theorem nodup_ids_idbPut {s : Store} {v : ImageVariant}
    (h : (s.map ImageVariant.id).Nodup) :
    ((idbPut s v).map ImageVariant.id).Nodup := by
  induction s with
  | nil => simp [idbPut]
  | cons w rest ih =>
    simp only [List.map_cons, List.nodup_cons] at h
    by_cases hw : w.id = v.id
    · simp only [idbPut, if_pos hw, List.map_cons, List.nodup_cons]
      exact ⟨hw ▸ h.1, h.2⟩
    · simp only [idbPut, if_neg hw, List.map_cons, List.nodup_cons]
      refine ⟨fun hmem => ?_, ih h.2⟩
      rcases mem_ids_idbPut hmem with h2 | h2
      · exact hw h2
      · exact h.1 h2

theorem nodup_ids_foldl (ops : List ImageVariant) (s : Store)
    (h : (s.map ImageVariant.id).Nodup) :
    (((ops.foldl idbPut s)).map ImageVariant.id).Nodup := by
  induction ops generalizing s with
  | nil => simpa using h
  | cons v rest ih => exact ih _ (nodup_ids_idbPut h)

/-- C4: starting from the fresh (empty) object store, any sequence of
`put`s leaves `getAll` with exactly one record per distinct id, and the
record stored under an id is the most recent variant `put` with that id
(the first match over the reversed sequence): last-write-wins, never a
duplicate. -/
theorem claim_C4_store_upsert (ops : List ImageVariant) :
    (((getAllVariantsFromDB (ops.foldl idbPut ([] : Store)))).map
        ImageVariant.id).Nodup ∧
    ∀ i : String, findVariant (ops.foldl idbPut ([] : Store)) i =
      ops.reverse.find? (fun w => w.id = i) := by
  constructor
  · exact nodup_ids_foldl ops [] (by simp [Store])
  · intro i
    rw [findVariant_foldl]
    have h0 : findVariant ([] : Store) i = none := rfl
    rw [h0]
    exact Option.or_none

/-! ### Export filename lemmas -/

/-- C8: for both bulk-export paths — the CSV `Local Filename` column and
the sequential batch download — the derived filename is the tail segment
of the variant's id with an extension matching the declared export
format: `.png` for png, `.jpg` for jpeg. -/
theorem claim_C8_export_filenames (v : ImageVariant) :
    (v.config.exportFormat = some ExportFormat.png →
      csvFilename v = "cloaked_opt_" ++ shortIdOf v ++ ".png" ∧
      batchDownloadFilename v = "cloaked-asset-" ++ shortIdOf v ++ ".png") ∧
    (v.config.exportFormat = some ExportFormat.jpeg →
      csvFilename v = "cloaked_opt_" ++ shortIdOf v ++ ".jpg" ∧
      batchDownloadFilename v = "cloaked-asset-" ++ shortIdOf v ++ ".jpg") := by
  constructor
  · intro h
    constructor
    · show "cloaked_opt_" ++ shortIdOf v ++ "." ++ extOf v.config.exportFormat
        = "cloaked_opt_" ++ shortIdOf v ++ ".png"
      rw [h]
      simp [extOf, String.append_assoc]
    · show "cloaked-asset-" ++ shortIdOf v ++ "." ++ extOf v.config.exportFormat
        = "cloaked-asset-" ++ shortIdOf v ++ ".png"
      rw [h]
      simp [extOf, String.append_assoc]
  · intro h
    constructor
    · show "cloaked_opt_" ++ shortIdOf v ++ "." ++ extOf v.config.exportFormat
        = "cloaked_opt_" ++ shortIdOf v ++ ".jpg"
      rw [h]
      simp [extOf, String.append_assoc]
    · show "cloaked-asset-" ++ shortIdOf v ++ "." ++ extOf v.config.exportFormat
        = "cloaked-asset-" ++ shortIdOf v ++ ".jpg"
      rw [h]
      simp [extOf, String.append_assoc]

/-! ### Pipeline projection lemmas -/

theorem renderVariant_status (env : GfxEnv) (g : RNG) (baseW baseH : ℕ)
    (pn id : String) (opts : GenOptions) (now : ℕ) :
    (renderVariant env g baseW baseH pn id opts now).variant.status = .pending := by
  cases h : opts.marketCloaking <;> simp [renderVariant, h]

theorem renderVariant_id (env : GfxEnv) (g : RNG) (baseW baseH : ℕ)
    (pn id : String) (opts : GenOptions) (now : ℕ) :
    (renderVariant env g baseW baseH pn id opts now).variant.id = id := by
  cases h : opts.marketCloaking <;> simp [renderVariant, h]

theorem renderVariant_blobUrl (env : GfxEnv) (g : RNG) (baseW baseH : ℕ)
    (pn id : String) (opts : GenOptions) (now : ℕ) :
    (renderVariant env g baseW baseH pn id opts now).variant.blobUrl =
      some (renderVariant env g baseW baseH pn id opts now).variant.dataUrl := by
  cases h : opts.marketCloaking <;> simp [renderVariant, h]

theorem renderVariant_opacity (env : GfxEnv) (g : RNG) (baseW baseH : ℕ)
    (pn id : String) (opts : GenOptions) (now : ℕ) :
    (renderVariant env g baseW baseH pn id opts now).variant.config.opacity =
      some (opts.opacity.getD (3/100)) := by
  cases h : opts.marketCloaking <;> simp [renderVariant, h]

theorem renderVariant_width (env : GfxEnv) (g : RNG) (baseW baseH : ℕ)
    (pn id : String) (opts : GenOptions) (now : ℕ) :
    (renderVariant env g baseW baseH pn id opts now).width =
      jsToUint32 ((baseW : ℚ) * jsOr opts.upscaleFactor 1) := by
  cases h : opts.marketCloaking <;> simp [renderVariant, h]

theorem renderVariant_height (env : GfxEnv) (g : RNG) (baseW baseH : ℕ)
    (pn id : String) (opts : GenOptions) (now : ℕ) :
    (renderVariant env g baseW baseH pn id opts now).height =
      jsToUint32 ((baseH : ℚ) * jsOr opts.upscaleFactor 1) := by
  cases h : opts.marketCloaking <;> simp [renderVariant, h]

/-- With a committing store, `generateVariant` resolves with the
rendered variant and the store after the put. -/
theorem generateVariant_true_eq (env : GfxEnv) (g : RNG) (s : Store)
    (baseW baseH : ℕ) (pn id : String) (opts : GenOptions) (now : ℕ) :
    generateVariant env true g s baseW baseH pn id opts now =
      .ok ⟨(renderVariant env g baseW baseH pn id opts now).variant,
        idbPut s (renderVariant env g baseW baseH pn id opts now).variant,
        (renderVariant env g baseW baseH pn id opts now).width,
        (renderVariant env g baseW baseH pn id opts now).height,
        (renderVariant env g baseW baseH pn id opts now).noised,
        (renderVariant env g baseW baseH pn id opts now).pixels,
        (renderVariant env g baseW baseH pn id opts now).rng⟩ := rfl

/-- With a failing store, the put rejection propagates out of
`generateVariant`. -/
theorem generateVariant_false_eq (env : GfxEnv) (g : RNG) (s : Store)
    (baseW baseH : ℕ) (pn id : String) (opts : GenOptions) (now : ℕ) :
    generateVariant env false g s baseW baseH pn id opts now =
      .error "store put rejected" := rfl

/-- C7: whenever `generateVariant` returns (that is, when the put
transaction commits), the returned variant has `status = 'pending'` and
it has already been persisted: the store holds, under the variant's id,
exactly the returned variant before the function resolves. -/
theorem claim_C7_pending_and_persisted (env : GfxEnv) (g : RNG) (s : Store)
    (baseW baseH : ℕ) (pn id : String) (opts : GenOptions) (now : ℕ) :
    generateVariant env true g s baseW baseH pn id opts now =
      .ok ⟨(renderVariant env g baseW baseH pn id opts now).variant,
        idbPut s (renderVariant env g baseW baseH pn id opts now).variant,
        (renderVariant env g baseW baseH pn id opts now).width,
        (renderVariant env g baseW baseH pn id opts now).height,
        (renderVariant env g baseW baseH pn id opts now).noised,
        (renderVariant env g baseW baseH pn id opts now).pixels,
        (renderVariant env g baseW baseH pn id opts now).rng⟩ ∧
    (renderVariant env g baseW baseH pn id opts now).variant.status =
      VStatus.pending ∧
    findVariant (idbPut s (renderVariant env g baseW baseH pn id opts now).variant)
        (renderVariant env g baseW baseH pn id opts now).variant.id =
      some (renderVariant env g baseW baseH pn id opts now).variant := by
  refine ⟨generateVariant_true_eq env g s baseW baseH pn id opts now,
    renderVariant_status env g baseW baseH pn id opts now, ?_⟩
  rw [findVariant_idbPut]
  simp

/-- C10: every variant the pipeline creates carries `blobUrl = dataUrl`
— the `blobUrl` field is never a distinct short-lived URL. -/
theorem claim_C10_blobUrl_eq_dataUrl (env : GfxEnv) (dbOk : Bool) (g : RNG)
    (s : Store) (baseW baseH : ℕ) (pn id : String) (opts : GenOptions)
    (now : ℕ) :
    (renderVariant env g baseW baseH pn id opts now).variant.blobUrl =
      some (renderVariant env g baseW baseH pn id opts now).variant.dataUrl ∧
    ((generateVariant env dbOk g s baseW baseH pn id opts now).toOption.map
        (fun r => r.variant.blobUrl)) =
      ((generateVariant env dbOk g s baseW baseH pn id opts now).toOption.map
        (fun r => some r.variant.dataUrl)) := by
  refine ⟨renderVariant_blobUrl env g baseW baseH pn id opts now, ?_⟩
  cases dbOk
  · rw [generateVariant_false_eq]
    rfl
  · rw [generateVariant_true_eq]
    simp [Except.toOption, renderVariant_blobUrl]

/-! ### Canvas sizing -/

theorem ratFloor_eq (q : ℚ) : Rat.floor q = ⌊q⌋ :=
  (Rat.floor_def' q).trans Rat.floor_def.symm

theorem jsToUint32_of_nonneg (q : ℚ) (h0 : 0 ≤ q) (hlt : q < 2^32) :
    jsToUint32 q = (⌊q⌋).toNat := by
  unfold jsToUint32
  rw [if_pos h0, ratFloor_eq]
  congr 1
  apply Int.emod_eq_of_lt
  · exact Int.floor_nonneg.mpr h0
  · rw [Int.floor_lt]
    push_cast
    exact hlt

/-- C6: the output raster dimensions equal the source dimensions times
the resolved upscale factor — `1` when the option is absent — under the
fixed floor rounding of the canvas `unsigned long` size setters.  The
bounds on the inputs delimit "valid inputs": real image dimensions and
upscale factors sit far below them, and they keep the product clear of
the 2³² wrap. -/
theorem claim_C6_raster_dimensions (env : GfxEnv) (g : RNG) (s : Store)
    (baseW baseH : ℕ) (pn id : String) (opts : GenOptions) (now : ℕ) (u : ℚ)
    (hw : baseW ≤ 65535) (hh : baseH ≤ 65535) :
    (opts.upscaleFactor = none →
      ((generateVariant env true g s baseW baseH pn id opts now).toOption.map
        GenResult.width) = some baseW ∧
      ((generateVariant env true g s baseW baseH pn id opts now).toOption.map
        GenResult.height) = some baseH) ∧
    (opts.upscaleFactor = some u → 0 < u → u ≤ 256 →
      ((generateVariant env true g s baseW baseH pn id opts now).toOption.map
        GenResult.width) = some (⌊(baseW : ℚ) * u⌋).toNat ∧
      ((generateVariant env true g s baseW baseH pn id opts now).toOption.map
        GenResult.height) = some (⌊(baseH : ℚ) * u⌋).toNat) := by
  have hdim : ∀ d : ℕ, d ≤ 65535 → jsToUint32 ((d : ℚ) * 1) = d := by
    intro d hd
    rw [mul_one, jsToUint32_of_nonneg]
    · simp
    · positivity
    · calc (d : ℚ) ≤ 65535 := by exact_mod_cast hd
        _ < 2^32 := by norm_num
  have hdim2 : ∀ d : ℕ, d ≤ 65535 → 0 < u → u ≤ 256 →
      jsToUint32 ((d : ℚ) * u) = (⌊(d : ℚ) * u⌋).toNat := by
    intro d hd hu hu2
    rw [jsToUint32_of_nonneg]
    · positivity
    · calc (d : ℚ) * u ≤ 65535 * 256 := by
            apply mul_le_mul (by exact_mod_cast hd) hu2 hu.le (by norm_num)
        _ < 2^32 := by norm_num
  rw [generateVariant_true_eq]
  constructor
  · intro hnone
    constructor
    · simp only [Except.toOption, Option.map_some]
      rw [renderVariant_width, hnone]
      show some (jsToUint32 ((baseW : ℚ) * 1)) = some baseW
      rw [hdim baseW hw]
    · simp only [Except.toOption, Option.map_some]
      rw [renderVariant_height, hnone]
      show some (jsToUint32 ((baseH : ℚ) * 1)) = some baseH
      rw [hdim baseH hh]
  · intro hsome hu hu2
    have hne : ¬ u = 0 := ne_of_gt hu
    constructor
    · simp only [Except.toOption, Option.map_some]
      rw [renderVariant_width, hsome]
      show some (jsToUint32 ((baseW : ℚ) * jsOr (some u) 1)) = _
      rw [show jsOr (some u) 1 = u by simp [jsOr, hne]]
      rw [hdim2 baseW hw hu hu2]
    · simp only [Except.toOption, Option.map_some]
      rw [renderVariant_height, hsome]
      show some (jsToUint32 ((baseH : ℚ) * jsOr (some u) 1)) = _
      rw [show jsOr (some u) 1 = u by simp [jsOr, hne]]
      rw [hdim2 baseH hh hu hu2]

/-! ### Decimal rendering of naturals

The batch ids are built with the template `cloaked-${Date.now()}-${i}`.
Distinctness of the ids within a run reduces to facts about `Nat.repr`:
its characters are decimal digits (never `'-'`) and it is injective. -/

theorem toDigitsCore_pos_eq (fuel : ℕ) :
    ∀ (n : ℕ) (acc : List Char), 0 < n → n ≤ fuel →
      Nat.toDigitsCore 10 fuel n acc =
        ((Nat.digits 10 n).map Nat.digitChar).reverse ++ acc := by
  induction fuel with
  | zero => intro n acc hn hf; omega
  | succ fuel ih =>
    intro n acc hn hf
    simp only [Nat.toDigitsCore]
    by_cases hq : n / 10 = 0
    · have hlt : n < 10 := by omega
      rw [if_pos hq, Nat.digits_def' (by norm_num : (1:ℕ) < 10) hn, hq,
        Nat.digits_zero]
      simp
    · rw [if_neg hq]
      have hrec : n / 10 ≤ fuel := by
        have := Nat.div_lt_self hn (by norm_num : 1 < 10)
        omega
      rw [ih (n / 10) _ (Nat.pos_of_ne_zero hq) hrec,
        Nat.digits_def' (by norm_num : (1:ℕ) < 10) hn]
      simp

theorem repr_data_pos (n : ℕ) (hn : 0 < n) :
    (Nat.repr n).data = ((Nat.digits 10 n).map Nat.digitChar).reverse := by
  show (Nat.toDigits 10 n).asString.data = _
  rw [Nat.toDigits, toDigitsCore_pos_eq (n + 1) n [] hn (by omega)]
  simp [List.asString]

theorem repr_data_zero : (Nat.repr 0).data = ['0'] := rfl

theorem digitChar_inj_lt :
    ∀ a < 10, ∀ b < 10, Nat.digitChar a = Nat.digitChar b → a = b := by decide

theorem digitChar_ne_dash : ∀ a < 10, Nat.digitChar a ≠ '-' := by decide

theorem map_digitChar_inj :
    ∀ (l1 l2 : List ℕ), (∀ x ∈ l1, x < 10) → (∀ x ∈ l2, x < 10) →
      l1.map Nat.digitChar = l2.map Nat.digitChar → l1 = l2 := by
  intro l1
  induction l1 with
  | nil => intro l2 _ _ h; cases l2 with
    | nil => rfl
    | cons b bs => simp at h
  | cons a as ih =>
    intro l2 h1 h2 h
    cases l2 with
    | nil => simp at h
    | cons b bs =>
      simp only [List.map_cons, List.cons.injEq] at h
      have ha : a = b := digitChar_inj_lt a (h1 a (by simp)) b (h2 b (by simp)) h.1
      have : as = bs := ih bs (fun x hx => h1 x (by simp [hx]))
        (fun x hx => h2 x (by simp [hx])) h.2
      rw [ha, this]

theorem repr_data_inj {m n : ℕ} (h : (Nat.repr m).data = (Nat.repr n).data) :
    m = n := by
  rcases Nat.eq_zero_or_pos m with hm | hm
  · rcases Nat.eq_zero_or_pos n with hn | hn
    · rw [hm, hn]
    · subst hm
      rw [repr_data_zero, repr_data_pos n hn] at h
      have h2 : (Nat.digits 10 n).map Nat.digitChar = ['0'] := by
        have := congrArg List.reverse h
        simpa using this.symm
      have h3 : Nat.digits 10 n = [0] :=
        map_digitChar_inj _ [0]
          (fun x hx => Nat.digits_lt_base (by norm_num) hx)
          (by intro x hx; simp at hx; omega) (by simpa using h2)
      have := Nat.ofDigits_digits 10 n
      rw [h3] at this
      simp [Nat.ofDigits] at this
      omega
  · rcases Nat.eq_zero_or_pos n with hn | hn
    · subst hn
      rw [repr_data_zero, repr_data_pos m hm] at h
      have h2 : (Nat.digits 10 m).map Nat.digitChar = ['0'] := by
        have := congrArg List.reverse h
        simpa using this
      have h3 : Nat.digits 10 m = [0] :=
        map_digitChar_inj _ [0]
          (fun x hx => Nat.digits_lt_base (by norm_num) hx)
          (by intro x hx; simp at hx; omega) (by simpa using h2)
      have := Nat.ofDigits_digits 10 m
      rw [h3] at this
      simp [Nat.ofDigits] at this
      omega
    · rw [repr_data_pos m hm, repr_data_pos n hn] at h
      have h2 := congrArg List.reverse h
      simp only [List.reverse_reverse] at h2
      have h3 : Nat.digits 10 m = Nat.digits 10 n :=
        map_digitChar_inj _ _
          (fun x hx => Nat.digits_lt_base (by norm_num) hx)
          (fun x hx => Nat.digits_lt_base (by norm_num) hx) h2
      have hm2 := Nat.ofDigits_digits 10 m
      have hn2 := Nat.ofDigits_digits 10 n
      rw [h3] at hm2
      omega

theorem repr_no_dash (n : ℕ) : '-' ∉ (Nat.repr n).data := by
  rcases Nat.eq_zero_or_pos n with hn | hn
  · subst hn; rw [repr_data_zero]; decide
  · rw [repr_data_pos n hn]
    intro hmem
    rw [List.mem_reverse, List.mem_map] at hmem
    obtain ⟨d, hd, hdc⟩ := hmem
    exact digitChar_ne_dash d (Nat.digits_lt_base (by norm_num) hd) hdc

theorem append_dash_inj :
    ∀ (a : List Char) {b c d : List Char}, '-' ∉ a → '-' ∉ c →
      a ++ '-' :: b = c ++ '-' :: d → a = c ∧ b = d := by
  intro a
  induction a with
  | nil =>
    intro b c d _ hc h
    cases c with
    | nil => simpa using h
    | cons c0 cs =>
      simp only [List.nil_append, List.cons_append, List.cons.injEq] at h
      exact absurd (show ('-') ∈ c0 :: cs by
        rw [← h.1]; exact List.mem_cons_self _ _) hc
  | cons a0 as ih =>
    intro b c d ha hc h
    cases c with
    | nil =>
      simp only [List.cons_append, List.nil_append, List.cons.injEq] at h
      exact absurd (show ('-') ∈ a0 :: as by
        rw [h.1]; exact List.mem_cons_self _ _) ha
    | cons c0 cs =>
      simp only [List.cons_append, List.cons.injEq] at h
      have has : '-' ∉ as := fun hx => ha (List.mem_cons_of_mem a0 hx)
      have hcs : '-' ∉ cs := fun hx => hc (List.mem_cons_of_mem c0 hx)
      obtain ⟨h1, h2⟩ := ih has hcs h.2
      exact ⟨by rw [h.1, h1], h2⟩

theorem mkVariantId_inj {t1 t2 i j : ℕ}
    (h : mkVariantId t1 i = mkVariantId t2 j) : i = j := by
  have hd := congrArg String.data h
  simp only [mkVariantId, String.data_append] at hd
  have hd2 : (Nat.repr t1).data ++ '-' :: (Nat.repr i).data =
      (Nat.repr t2).data ++ '-' :: (Nat.repr j).data := by
    have : ("cloaked-".data ++ (Nat.repr t1).data) ++ ("-".data ++ (Nat.repr i).data) =
        ("cloaked-".data ++ (Nat.repr t2).data) ++ ("-".data ++ (Nat.repr j).data) := by
      simpa using hd
    simp only [List.append_assoc] at this
    have h3 := List.append_cancel_left this
    simpa using h3
  exact repr_data_inj (append_dash_inj _ (repr_no_dash t1) (repr_no_dash t2) hd2).2

/-! ### Batch loop lemmas -/

theorem generateLoop_true_spec (env : GfxEnv) (baseW baseH : ℕ) (pn : String)
    (opts : GenOptions) (count : ℕ) (ts : ℕ → ℕ) :
    ∀ (n i : ℕ) (g : RNG) (s : Store),
      (generateLoop env true baseW baseH pn opts count ts i n g s).2.2.2.2 = false ∧
      (generateLoop env true baseW baseH pn opts count ts i n g s).1.map
          ImageVariant.id =
        (List.range n).map (fun k => mkVariantId (ts (i + k)) (i + k)) ∧
      (generateLoop env true baseW baseH pn opts count ts i n g s).2.1 =
        (List.range n).map
          (fun k => (((i + k : ℕ) : ℚ) + 1) / (count : ℚ) * 100) ∧
      (generateLoop env true baseW baseH pn opts count ts i n g s).1.all
        (fun v => v.config.opacity == some (opts.opacity.getD (3/100))) = true := by
  intro n
  induction n with
  | zero => intro i g s; simp [generateLoop]
  | succ n ih =>
    intro i g s
    have hstep := ih (i + 1)
      (renderVariant env g baseW baseH pn (mkVariantId (ts i) i) opts (ts i)).rng
      (idbPut s (renderVariant env g baseW baseH pn (mkVariantId (ts i) i) opts (ts i)).variant)
    simp only [generateLoop, generateVariant_true_eq]
    rw [List.range_succ_eq_map]
    refine ⟨hstep.1, ?_, ?_, ?_⟩
    · simp only [List.map_cons, List.map_map]
      rw [hstep.2.1, renderVariant_id]
      congr 1
      apply List.map_congr_left
      intro k _
      have he : i + 1 + k = i + Nat.succ k := by omega
      simp only [Function.comp_apply, he]
    · simp only [List.map_cons, List.map_map]
      rw [hstep.2.2.1]
      congr 1
      apply List.map_congr_left
      intro k _
      have he : i + 1 + k = i + Nat.succ k := by omega
      simp only [Function.comp_apply, he]
    · simp only [List.all_cons, hstep.2.2.2, Bool.and_true]
      rw [renderVariant_opacity]
      simp

theorem generateLoop_false_nil (env : GfxEnv) (baseW baseH : ℕ) (pn : String)
    (opts : GenOptions) (count : ℕ) (ts : ℕ → ℕ) :
    ∀ (n i : ℕ) (g : RNG) (s : Store),
      (generateLoop env false baseW baseH pn opts count ts i n g s).1 = [] := by
  intro n
  cases n with
  | zero => intro i g s; rfl
  | succ n => intro i g s; simp [generateLoop, generateVariant_false_eq]

/-- C5: with a committing store, a batch run of `count = N ≥ 1` never
aborts and surfaces exactly `N` variants, whose ids follow the
`cloaked-<timestamp>-<index>` template in creation order and are
pairwise distinct for every timestamp stream; the reported progress
after item `i` is `((i+1)/N)·100`, non-decreasing and exactly `100` on
the last item. -/
theorem claim_C5_batch_generation (env : GfxEnv) (baseW baseH : ℕ)
    (pn : String) (st : SynthState) (ts : ℕ → ℕ) (g : RNG) (s : Store)
    (hc : 1 ≤ st.variantCount) :
    (handleGenerate env true baseW baseH pn st ts g s).aborted = false ∧
    (handleGenerate env true baseW baseH pn st ts g s).surfaced.map
        ImageVariant.id =
      (List.range st.variantCount).map (fun i => mkVariantId (ts i) i) ∧
    (handleGenerate env true baseW baseH pn st ts g s).surfaced.length =
      st.variantCount ∧
    ((handleGenerate env true baseW baseH pn st ts g s).surfaced.map
        ImageVariant.id).Nodup ∧
    (handleGenerate env true baseW baseH pn st ts g s).progress =
      (List.range st.variantCount).map
        (fun i : ℕ => ((i : ℚ) + 1) / (st.variantCount : ℚ) * 100) ∧
    (handleGenerate env true baseW baseH pn st ts g s).progress.Pairwise
      (· ≤ ·) ∧
    (handleGenerate env true baseW baseH pn st ts g s).progress.getLast? =
      some 100 := by
  have hspec := generateLoop_true_spec env baseW baseH pn (optsOfState st)
    st.variantCount ts st.variantCount 0 g s
  have hab : (handleGenerate env true baseW baseH pn st ts g s).aborted = false := by
    simp only [handleGenerate]
    exact hspec.1
  have hsurf : (handleGenerate env true baseW baseH pn st ts g s).surfaced =
      (generateLoop env true baseW baseH pn (optsOfState st) st.variantCount ts
        0 st.variantCount g s).1 := by
    simp only [handleGenerate, hspec.1, Bool.false_eq_true, if_false]
  have hids : (handleGenerate env true baseW baseH pn st ts g s).surfaced.map
      ImageVariant.id =
      (List.range st.variantCount).map (fun i => mkVariantId (ts i) i) := by
    rw [hsurf, hspec.2.1]
    apply List.map_congr_left
    intro k _
    rw [Nat.zero_add]
  have hprog : (handleGenerate env true baseW baseH pn st ts g s).progress =
      (List.range st.variantCount).map
        (fun i : ℕ => ((i : ℚ) + 1) / (st.variantCount : ℚ) * 100) := by
    have : (handleGenerate env true baseW baseH pn st ts g s).progress =
        (generateLoop env true baseW baseH pn (optsOfState st) st.variantCount
          ts 0 st.variantCount g s).2.1 := by
      simp only [handleGenerate]
    rw [this, hspec.2.2.1]
    apply List.map_congr_left
    intro k _
    rw [Nat.zero_add]
  refine ⟨hab, hids, ?_, ?_, hprog, ?_, ?_⟩
  · have := congrArg List.length hids
    simpa using this
  · rw [hids]
    exact List.Nodup.map (fun a b hab2 => mkVariantId_inj hab2) (List.nodup_range _)
  · rw [hprog]
    rw [List.pairwise_map]
    apply List.Pairwise.imp_of_mem ?_ (List.pairwise_lt_range st.variantCount)
    intro a b _ _ hlt
    have hNpos : (0 : ℚ) < (st.variantCount : ℚ) := by
      exact_mod_cast Nat.lt_of_lt_of_le Nat.zero_lt_one hc
    apply mul_le_mul_of_nonneg_right _ (by norm_num : (0:ℚ) ≤ 100)
    rw [div_le_div_iff_of_pos_right hNpos]
    have : (a : ℚ) ≤ (b : ℚ) := by exact_mod_cast hlt.le
    linarith
  · rw [hprog]
    obtain ⟨m, hm⟩ : ∃ m, st.variantCount = m + 1 := by
      cases hN : st.variantCount with
      | zero => omega
      | succ m => exact ⟨m, rfl⟩
    rw [hm, List.range_succ, List.map_append, List.map_singleton,
      List.getLast?_concat]
    congr 1
    have hne : ((m : ℚ) + 1) ≠ 0 := by positivity
    have hcast : ((m + 1 : ℕ) : ℚ) = (m : ℚ) + 1 := by push_cast; ring
    rw [hcast, div_self hne, one_mul]

/-- C2 (amended): a rejected store put is fatal to the run — it rejects
`generateVariant` itself (there is no try/catch around the `await`), and
inside `handleGenerate` the rejection is caught by the surrounding
catch, which abandons the remaining batch: no variant is surfaced to the
UI, the accumulator is discarded, and the store is left untouched.  The
error does stop at `handleGenerate`'s catch, so the page itself does not
crash. -/
theorem claim_C2_put_failure_fatal (env : GfxEnv) (baseW baseH : ℕ)
    (pn : String) (st : SynthState) (ts : ℕ → ℕ) (g : RNG) (s : Store)
    (hc : 1 ≤ st.variantCount) :
    generateVariant env false g s baseW baseH pn (mkVariantId (ts 0) 0)
        (optsOfState st) (ts 0) = .error "store put rejected" ∧
    (handleGenerate env false baseW baseH pn st ts g s).aborted = true ∧
    (handleGenerate env false baseW baseH pn st ts g s).surfaced = [] ∧
    (handleGenerate env false baseW baseH pn st ts g s).generated = [] ∧
    (handleGenerate env false baseW baseH pn st ts g s).store = s := by
  obtain ⟨m, hm⟩ : ∃ m, st.variantCount = m + 1 := by
    cases hN : st.variantCount with
    | zero => omega
    | succ m => exact ⟨m, rfl⟩
  refine ⟨rfl, ?_, ?_, ?_, ?_⟩ <;>
    simp [handleGenerate, hm, generateLoop, generateVariant_false_eq]

/-- C9: the opacity of every resolved config equals the caller-supplied
opacity, or `0.03` when none is supplied; the app's only call site
passes the `opacity` state cell, which no rendered control ever writes,
so it always holds its initial value `0.04` — hence every variant the
app generates has resolved opacity in `[0,1]`, and the no-caller-value
default `0.03` lies in `(0, 0.1]`. -/
theorem claim_C9_opacity_range (env : GfxEnv) (dbOk : Bool) (baseW baseH : ℕ)
    (pn id : String) (st : SynthState) (ts : ℕ → ℕ) (g : RNG) (s : Store)
    (now : ℕ) (bn : String) (tags : List String)
    (hop : st.opacity = (initialSynthState bn tags).opacity) :
    ((handleGenerate env dbOk baseW baseH pn st ts g s).generated.all
        (fun v => v.config.opacity == some st.opacity)) = true ∧
    0 ≤ st.opacity ∧ st.opacity ≤ 1 ∧
    (renderVariant env g baseW baseH pn id ({} : GenOptions) now).variant.config.opacity
        = some (3/100) ∧
    0 < (3/100 : ℚ) ∧ (3/100 : ℚ) ≤ 1/10 := by
  have hop' : st.opacity = 1/25 := hop
  refine ⟨?_, by rw [hop']; norm_num, by rw [hop']; norm_num, ?_, by norm_num,
    by norm_num⟩
  · cases dbOk
    · rw [show (handleGenerate env false baseW baseH pn st ts g s).generated =
          (generateLoop env false baseW baseH pn (optsOfState st)
            st.variantCount ts 0 st.variantCount g s).1 from rfl]
      rw [generateLoop_false_nil]
      rfl
    · have hspec := generateLoop_true_spec env baseW baseH pn (optsOfState st)
        st.variantCount ts st.variantCount 0 g s
      have : (optsOfState st).opacity.getD (3/100) = st.opacity := rfl
      rw [show (handleGenerate env true baseW baseH pn st ts g s).generated =
          (generateLoop env true baseW baseH pn (optsOfState st)
            st.variantCount ts 0 st.variantCount g s).1 from rfl]
      rw [← this]
      exact hspec.2.2.2
  · rw [renderVariant_opacity]
    rfl

/-! ### Noise stage analysis -/

theorem jsRound_eq (q : ℚ) : jsRound q = ⌊q + 1/2⌋ := by
  simp [jsRound, ratFloor_eq]

theorem noiseLoop_cons (nl : ℚ) (g : RNG) (i r gr b a : ℕ) (rest : List ℕ) :
    noiseLoop nl g i (r :: gr :: b :: a :: rest) =
      (clampByte (min 255 (max 0 ((r : ℚ) + (g.f g.k - 1/2) * (nl * 15)))) ::
       clampByte (min 255 (max 0 ((gr : ℚ) + (g.f g.k - 1/2) * (nl * 15)))) ::
       clampByte (min 255 (max 0 ((b : ℚ) + (g.f g.k - 1/2) * (nl * 15)))) ::
       (if i % 100 = 0 then 254 + (jsRound (g.f (g.k + 1))).toNat else a) ::
       (noiseLoop nl (if i % 100 = 0 then ⟨g.f, g.k + 2⟩ else ⟨g.f, g.k + 1⟩)
         (i + 4) rest).1,
       (noiseLoop nl (if i % 100 = 0 then ⟨g.f, g.k + 2⟩ else ⟨g.f, g.k + 1⟩)
         (i + 4) rest).2) := by
  by_cases h : i % 100 = 0 <;> simp [noiseLoop, RNG.draw, h]

theorem roundTiesEven_eq_of {q : ℚ} {v : ℤ} (h1 : (v : ℚ) - 1/2 < q)
    (h2 : q < (v : ℚ) + 1/2) : roundTiesEven q = v := by
  have hq : roundTiesEven q =
      (if q - (⌊q⌋ : ℚ) < 1/2 then ⌊q⌋
       else if 1/2 < q - (⌊q⌋ : ℚ) then ⌊q⌋ + 1
       else if ⌊q⌋ % 2 = 0 then ⌊q⌋ else ⌊q⌋ + 1) := by
    simp only [roundTiesEven, ratFloor_eq]
  rw [hq]
  rcases le_or_lt (v : ℚ) q with hle | hlt
  · have hfl : ⌊q⌋ = v := by
      rw [Int.floor_eq_iff]
      constructor
      · exact hle
      · linarith
    rw [hfl, if_pos (by linarith)]
  · have hfl : ⌊q⌋ = v - 1 := by
      rw [Int.floor_eq_iff]
      constructor
      · push_cast
        linarith
      · push_cast
        linarith
    rw [hfl]
    rw [if_neg (by push_cast; linarith), if_pos (by push_cast; linarith)]
    omega

theorem clampByte_id {v : ℕ} {n : ℚ} (hv : v ≤ 255) (hn1 : -(1/2) < n)
    (hn2 : n < 1/2) :
    clampByte (min 255 (max 0 ((v : ℚ) + n))) = v := by
  have hv255 : (v : ℚ) ≤ 255 := by exact_mod_cast hv
  have hv0 : (0 : ℚ) ≤ (v : ℚ) := by positivity
  set q : ℚ := (v : ℚ) + n with hqdef
  have hbounds : (v : ℚ) - 1/2 < min 255 (max 0 q) ∧
      min 255 (max 0 q) < (v : ℚ) + 1/2 := by
    rcases le_or_lt 0 q with hq0 | hq0
    · rcases le_or_lt q 255 with hq255 | hq255
      · rw [max_eq_right hq0, min_eq_right hq255]
        constructor <;> [linarith; linarith]
      · have hv' : (254 : ℚ) + 1/2 < (v : ℚ) := by linarith
        rw [max_eq_right hq0, min_eq_left hq255.le]
        constructor <;> linarith
    · have hv2 : (v : ℚ) < 1/2 := by linarith
      rw [max_eq_left hq0.le, min_eq_right (by norm_num : (0:ℚ) ≤ 255)]
      constructor <;> linarith
  have hX0 : (0 : ℚ) ≤ min 255 (max 0 q) :=
    le_min (by norm_num) (le_max_left 0 q)
  have hX255 : min 255 (max 0 q) ≤ 255 := min_le_left _ _
  unfold clampByte
  rw [max_eq_right hX0, min_eq_right hX255]
  rw [roundTiesEven_eq_of (v := (v : ℤ)) (by push_cast; exact hbounds.1)
    (by push_cast; exact hbounds.2)]
  exact Int.toNat_natCast v

/-- What one pass of the noise loop does when the effective level keeps
the channel noise strictly below half a byte step (as happens for the
`textureIntensity = 0` fallback level `0.05`): the red, green and blue
bytes survive the clamped byte store unchanged; the alpha byte of every
group whose byte index is divisible by 100 becomes 254 or 255; all
other alpha bytes are untouched. -/
inductive SubHalfNoise : ℕ → List ℕ → List ℕ → Prop
  | nil (i : ℕ) : SubHalfNoise i [] []
  | short (i : ℕ) (l : List ℕ) (h : l.length < 4) : SubHalfNoise i l l
  | cons (i r g b a a' : ℕ) (rest rest' : List ℕ)
      (ha : (i % 100 = 0 ∧ (a' = 254 ∨ a' = 255)) ∨ (i % 100 ≠ 0 ∧ a' = a))
      (tail : SubHalfNoise (i + 4) rest rest') :
      SubHalfNoise i (r :: g :: b :: a :: rest) (r :: g :: b :: a' :: rest')

/-- In every group, one single noise sample `n`, bounded by
`± noiseLevel·15/2`, is added to all three of R, G and B (the channels
are not perturbed independently), each clamped to `[0,255]`; the alpha
byte of every group at a byte index divisible by 100 becomes 254 or
255, and all other alpha bytes are untouched — independently of any
cloaking flag, which the noise stage never consults. -/
inductive SharedNoise (nl : ℚ) : ℕ → List ℕ → List ℕ → Prop
  | nil (i : ℕ) : SharedNoise nl i [] []
  | short (i : ℕ) (l : List ℕ) (h : l.length < 4) : SharedNoise nl i l l
  | cons (i r g b a a' : ℕ) (rest rest' : List ℕ) (n : ℚ)
      (hb : |n| ≤ nl * 15 / 2)
      (ha : (i % 100 = 0 ∧ (a' = 254 ∨ a' = 255)) ∨ (i % 100 ≠ 0 ∧ a' = a))
      (tail : SharedNoise nl (i + 4) rest rest') :
      SharedNoise nl i (r :: g :: b :: a :: rest)
        (clampByte (min 255 (max 0 ((r : ℚ) + n))) ::
         clampByte (min 255 (max 0 ((g : ℚ) + n))) ::
         clampByte (min 255 (max 0 ((b : ℚ) + n))) :: a' :: rest')

theorem alpha_byte_cases {g : RNG} (hg : g.Valid) (i a : ℕ) :
    (i % 100 = 0 ∧
      ((if i % 100 = 0 then 254 + (jsRound (g.f (g.k + 1))).toNat else a) = 254 ∨
       (if i % 100 = 0 then 254 + (jsRound (g.f (g.k + 1))).toNat else a) = 255)) ∨
    (i % 100 ≠ 0 ∧
      (if i % 100 = 0 then 254 + (jsRound (g.f (g.k + 1))).toNat else a) = a) := by
  by_cases h : i % 100 = 0
  · refine Or.inl ⟨h, ?_⟩
    rw [if_pos h, jsRound_eq]
    obtain ⟨hv0, hv1⟩ := hg (g.k + 1)
    have h0 : 0 ≤ ⌊g.f (g.k + 1) + 1/2⌋ := Int.floor_nonneg.mpr (by linarith)
    have h2 : ⌊g.f (g.k + 1) + 1/2⌋ < 2 := by
      rw [Int.floor_lt]
      push_cast
      linarith
    omega
  · exact Or.inr ⟨h, if_neg h⟩

theorem subHalfNoise_loop (hsmall : ∀ u : ℚ, 0 ≤ u → u < 1 →
      -(1/2) < (u - 1/2) * ((1/20 : ℚ) * 15) ∧ (u - 1/2) * ((1/20 : ℚ) * 15) < 1/2) :
    ∀ (data : List ℕ) (g : RNG) (i : ℕ), g.Valid →
      (∀ x ∈ data, x ≤ 255) →
      SubHalfNoise i data (noiseLoop (1/20) g i data).1
  | [], g, i, _, _ => by
    exact SubHalfNoise.nil i
  | [x], g, i, _, _ => SubHalfNoise.short i [x] (by simp)
  | [x, y], g, i, _, _ => SubHalfNoise.short i [x, y] (by simp)
  | [x, y, z], g, i, _, _ => SubHalfNoise.short i [x, y, z] (by simp)
  | r :: gr :: b :: a :: rest, g, i, hg, hd => by
    rw [noiseLoop_cons]
    obtain ⟨hu0, hu1⟩ := hg g.k
    obtain ⟨hn1, hn2⟩ := hsmall (g.f g.k) hu0 hu1
    rw [clampByte_id (hd r (by simp)) hn1 hn2,
      clampByte_id (hd gr (by simp)) hn1 hn2,
      clampByte_id (hd b (by simp)) hn1 hn2]
    refine SubHalfNoise.cons i r gr b a _ rest _ (alpha_byte_cases hg i a) ?_
    have hg2 : ∀ k : ℕ, (RNG.mk g.f k).Valid := fun k n => hg n
    by_cases h : i % 100 = 0
    · rw [if_pos h]
      exact subHalfNoise_loop hsmall rest ⟨g.f, g.k + 2⟩ (i + 4) (hg2 _)
        (fun x hx => hd x (by simp [hx]))
    · rw [if_neg h]
      exact subHalfNoise_loop hsmall rest ⟨g.f, g.k + 1⟩ (i + 4) (hg2 _)
        (fun x hx => hd x (by simp [hx]))

/-- C1 (amended): with `textureIntensity = 0` the noise stage is *not*
skipped — the falsy `0` falls back to the default level `0.05` and the
loop still runs.  The ±0.375 channel noise is lost to the clamped byte
store, so red/green/blue are unchanged; but the alpha byte of every
100th byte index (every 25th pixel) is overwritten with 254 or 255, so
the stage is not a no-op on pixel data. -/
theorem claim_C1_texture_zero_amended (g : RNG) (data : List ℕ)
    (hg : g.Valid) (hdata : ∀ x ∈ data, x ≤ 255) :
    SubHalfNoise 0 data (noiseStage (some 0) g data).1 := by
  have hstage : noiseStage (some 0) g data = noiseLoop (1/20) g 0 data := by
    simp [noiseStage, jsOr]
  rw [hstage]
  exact subHalfNoise_loop
    (fun u h0 h1 => by constructor <;> nlinarith) data g 0 hg hdata

theorem sharedNoise_loop (nl : ℚ) (hnl : 0 ≤ nl) :
    ∀ (data : List ℕ) (g : RNG) (i : ℕ), g.Valid →
      SharedNoise nl i data (noiseLoop nl g i data).1
  | [], g, i, _ => SharedNoise.nil i
  | [x], g, i, _ => SharedNoise.short i [x] (by simp)
  | [x, y], g, i, _ => SharedNoise.short i [x, y] (by simp)
  | [x, y, z], g, i, _ => SharedNoise.short i [x, y, z] (by simp)
  | r :: gr :: b :: a :: rest, g, i, hg => by
    rw [noiseLoop_cons]
    obtain ⟨hu0, hu1⟩ := hg g.k
    have hb : |(g.f g.k - 1/2) * (nl * 15)| ≤ nl * 15 / 2 := by
      rw [abs_mul]
      have h1 : |g.f g.k - 1/2| ≤ 1/2 := by
        rw [abs_le]
        constructor <;> linarith
      have h2 : |nl * 15| = nl * 15 := abs_of_nonneg (by positivity)
      calc |g.f g.k - 1/2| * |nl * 15| ≤ 1/2 * (nl * 15) := by
            rw [h2]
            apply mul_le_mul_of_nonneg_right h1 (by positivity)
        _ = nl * 15 / 2 := by ring
    refine SharedNoise.cons i r gr b a _ rest _ _ hb
      (alpha_byte_cases hg i a) ?_
    have hg2 : ∀ k : ℕ, (RNG.mk g.f k).Valid := fun k n => hg n
    by_cases h : i % 100 = 0
    · rw [if_pos h]
      exact sharedNoise_loop nl hnl rest ⟨g.f, g.k + 2⟩ (i + 4) (hg2 _)
    · rw [if_neg h]
      exact sharedNoise_loop nl hnl rest ⟨g.f, g.k + 1⟩ (i + 4) (hg2 _)

/-- C3 (amended): in the noise stage the red, green and blue channels of
a pixel are all perturbed by one and the same random sample (not
independent noise), whose magnitude is at most `noiseLevel·15/2` — the
coefficient is 15 whether or not cloaking is enabled, there is no
15-versus-10 mode split — each channel clamped to `[0,255]`; and the
alpha byte of every 100th byte index is set to 254 or 255 regardless of
the cloaking flag, which the stage never consults. -/
theorem claim_C3_noise_shape_amended (nl : ℚ) (g : RNG) (data : List ℕ)
    (hnl : 0 ≤ nl) (hg : g.Valid) :
    SharedNoise nl 0 data (noiseLoop nl g 0 data).1 :=
  sharedNoise_loop nl hnl data g 0 hg

/-! ### Concrete fixtures -/

/-- A graphics environment whose draw produces one RGBA pixel
`(10,20,30,255)` and whose other effects are inert. -/
def cEnvPix : GfxEnv :=
  { jitteredDraw := fun _ _ _ _ _ _ => [10, 20, 30, 255]
    plainDraw := fun _ _ => [10, 20, 30, 255]
    filterRedraw := fun _ _ _ p => p
    overlayDraw := fun _ p => p
    encode := fun _ _ _ => "data:img"
    FONTS := ["Arial"]
    COLORS := ["#FFFFFF"] }

/-- The constant-zero random stream. -/
def cRng0 : RNG := ⟨fun _ => 0, 0⟩

/-- A fixed timestamp stream. -/
def cTs : ℕ → ℕ := fun _ => 1700000000000

theorem cRng0_valid : cRng0.Valid := fun _ => ⟨le_refl 0, by norm_num [cRng0]⟩

/-- Evaluation of the noise loop at the fallback level `0.05` on one
pixel `(10,20,30,255)` with the zero random stream: the channel noise
`-0.375` rounds away, the alpha byte drops to 254. -/
theorem noiseDemo :
    (noiseLoop (1/20) cRng0 0 [10, 20, 30, 255]).1 = [10, 20, 30, 254] := by
  rw [noiseLoop_cons]
  simp only [cRng0]
  rw [clampByte_id (by norm_num) (by norm_num) (by norm_num),
    clampByte_id (by norm_num) (by norm_num) (by norm_num),
    clampByte_id (by norm_num) (by norm_num) (by norm_num)]
  have halpha : jsRound (0 : ℚ) = 0 := by
    rw [jsRound_eq]
    norm_num
  simp [halpha, noiseLoop]

/-! ### Counterexamples -/

/-- C1 counterexample: a concrete call with `textureIntensity = 0` in
which the noise stage changes the canvas pixel data — the alpha byte of
the first pixel drops from 255 to 254, because the falsy `0` falls back
to level `0.05` and the alpha fingerprint write runs unconditionally. -/
theorem claim_C1_counterexample :
    (noiseStage (some 0) cRng0 [10, 20, 30, 255]).1 ≠ [10, 20, 30, 255] := by
  have hstage : noiseStage (some 0) cRng0 [10, 20, 30, 255] =
      noiseLoop (1/20) cRng0 0 [10, 20, 30, 255] := by
    simp [noiseStage, jsOr]
  rw [hstage, noiseDemo]
  decide

/-- C3 counterexample: a concrete `generateVariant` run with
`marketCloaking = false` (the default options) in which the alpha byte
of the first pixel is still rewritten to 254 by the noise stage —
contradicting "only when cloaking is enabled is the alpha channel
perturbed". -/
theorem claim_C3_counterexample :
    ({} : GenOptions).marketCloaking = false ∧
    (∀ w h : ℕ, cEnvPix.plainDraw w h = [10, 20, 30, 255]) ∧
    (renderVariant cEnvPix cRng0 1 1 "p" "v" {} 0).noised = [10, 20, 30, 254] := by
  refine ⟨rfl, fun w h => rfl, ?_⟩
  have hred : (renderVariant cEnvPix cRng0 1 1 "p" "v" {} 0).noised =
      (noiseLoop (1/20) cRng0 0 [10, 20, 30, 255]).1 := by
    simp [renderVariant, cEnvPix, jsOr]
  rw [hred, noiseDemo]

/-- C2 counterexample: a concrete run against a store whose put
transactions reject.  `generateVariant` itself rejects (the failure
propagates out of the pipeline call), and the batch loop aborts with
nothing surfaced — the failure is not degraded to memory-only
operation. -/
theorem claim_C2_counterexample :
    generateVariant cEnvPix false cRng0 ([] : Store) 1 1 "p" "v" {} 0 =
      .error "store put rejected" ∧
    (handleGenerate cEnvPix false 1 1 "p" (initialSynthState "B-1" []) cTs cRng0
      ([] : Store)).aborted = true ∧
    (handleGenerate cEnvPix false 1 1 "p" (initialSynthState "B-1" []) cTs cRng0
      ([] : Store)).surfaced = [] ∧
    (handleGenerate cEnvPix false 1 1 "p" (initialSynthState "B-1" []) cTs cRng0
      ([] : Store)).generated = [] := by
  refine ⟨rfl, ?_, ?_, ?_⟩ <;>
    simp [handleGenerate, initialSynthState, generateLoop, generateVariant_false_eq]

/-! ### Witnesses -/

theorem q2_pos : (0 : ℚ) < 2 := by norm_num

theorem q2_le256 : (2 : ℚ) ≤ 256 := by norm_num

theorem floor_800_mul_2 : (⌊(800 : ℚ) * 2⌋).toNat = 1600 := by norm_num; rfl

theorem floor_600_mul_2 : (⌊(600 : ℚ) * 2⌋).toNat = 1200 := by norm_num; rfl

/-- Options requesting a 2× upscale. -/
def cOptsUp : GenOptions := { upscaleFactor := some 2 }

theorem claim_C6_witness :
    (800 ≤ 65535 ∧ 600 ≤ 65535 ∧ cOptsUp.upscaleFactor = some 2 ∧
      (0 : ℚ) < 2 ∧ (2 : ℚ) ≤ 256) ∧
    ((generateVariant cEnvPix true cRng0 ([] : Store) 800 600 "p" "v" cOptsUp
        0).toOption.map GenResult.width) = some 1600 ∧
    ((generateVariant cEnvPix true cRng0 ([] : Store) 800 600 "p" "v" cOptsUp
        0).toOption.map GenResult.height) = some 1200 := by
  have h := (claim_C6_raster_dimensions cEnvPix cRng0 ([] : Store) 800 600 "p"
    "v" cOptsUp 0 2 (by decide) (by decide)).2 rfl q2_pos q2_le256
  exact ⟨⟨by decide, by decide, rfl, q2_pos, q2_le256⟩,
    h.1.trans (congrArg some floor_800_mul_2),
    h.2.trans (congrArg some floor_600_mul_2)⟩

theorem claim_C5_witness :
    1 ≤ (initialSynthState "B-7" []).variantCount ∧
    ((handleGenerate cEnvPix true 1 1 "p" (initialSynthState "B-7" []) cTs cRng0
        ([] : Store)).aborted = false ∧
      (handleGenerate cEnvPix true 1 1 "p" (initialSynthState "B-7" []) cTs
          cRng0 ([] : Store)).surfaced.map ImageVariant.id =
        (List.range (initialSynthState "B-7" []).variantCount).map
          (fun i => mkVariantId (cTs i) i) ∧
      (handleGenerate cEnvPix true 1 1 "p" (initialSynthState "B-7" []) cTs
          cRng0 ([] : Store)).surfaced.length =
        (initialSynthState "B-7" []).variantCount ∧
      ((handleGenerate cEnvPix true 1 1 "p" (initialSynthState "B-7" []) cTs
          cRng0 ([] : Store)).surfaced.map ImageVariant.id).Nodup ∧
      (handleGenerate cEnvPix true 1 1 "p" (initialSynthState "B-7" []) cTs
          cRng0 ([] : Store)).progress =
        (List.range (initialSynthState "B-7" []).variantCount).map
          (fun i : ℕ => ((i : ℚ) + 1) /
            ((initialSynthState "B-7" []).variantCount : ℚ) * 100) ∧
      (handleGenerate cEnvPix true 1 1 "p" (initialSynthState "B-7" []) cTs
          cRng0 ([] : Store)).progress.Pairwise (· ≤ ·) ∧
      (handleGenerate cEnvPix true 1 1 "p" (initialSynthState "B-7" []) cTs
          cRng0 ([] : Store)).progress.getLast? = some 100) :=
  ⟨by decide, claim_C5_batch_generation cEnvPix 1 1 "p"
    (initialSynthState "B-7" []) cTs cRng0 ([] : Store) (by decide)⟩

theorem claim_C2_witness :
    1 ≤ (initialSynthState "B-1" []).variantCount ∧
    (generateVariant cEnvPix false cRng0 ([] : Store) 1 1 "p"
        (mkVariantId (cTs 0) 0) (optsOfState (initialSynthState "B-1" []))
        (cTs 0) = .error "store put rejected" ∧
      (handleGenerate cEnvPix false 1 1 "p" (initialSynthState "B-1" []) cTs
        cRng0 ([] : Store)).aborted = true ∧
      (handleGenerate cEnvPix false 1 1 "p" (initialSynthState "B-1" []) cTs
        cRng0 ([] : Store)).surfaced = [] ∧
      (handleGenerate cEnvPix false 1 1 "p" (initialSynthState "B-1" []) cTs
        cRng0 ([] : Store)).generated = [] ∧
      (handleGenerate cEnvPix false 1 1 "p" (initialSynthState "B-1" []) cTs
        cRng0 ([] : Store)).store = ([] : Store)) :=
  ⟨by decide, claim_C2_put_failure_fatal cEnvPix 1 1 "p"
    (initialSynthState "B-1" []) cTs cRng0 ([] : Store) (by decide)⟩

theorem claim_C9_witness :
    (initialSynthState "B-7" []).opacity = (initialSynthState "B-7" []).opacity ∧
    (((handleGenerate cEnvPix true 1 1 "p" (initialSynthState "B-7" []) cTs
        cRng0 ([] : Store)).generated.all
          (fun v => v.config.opacity ==
            some (initialSynthState "B-7" []).opacity)) = true ∧
      0 ≤ (initialSynthState "B-7" []).opacity ∧
      (initialSynthState "B-7" []).opacity ≤ 1 ∧
      (renderVariant cEnvPix cRng0 1 1 "p" "v"
        ({} : GenOptions) 0).variant.config.opacity = some (3/100) ∧
      0 < (3/100 : ℚ) ∧ (3/100 : ℚ) ≤ 1/10) :=
  ⟨rfl, claim_C9_opacity_range cEnvPix true 1 1 "p" "v"
    (initialSynthState "B-7" []) cTs cRng0 ([] : Store) 0 "B-7" [] rfl⟩

theorem claim_C1_witness :
    cRng0.Valid ∧ (∀ x ∈ [10, 20, 30, 255], x ≤ 255) ∧
    SubHalfNoise 0 [10, 20, 30, 255]
      (noiseStage (some 0) cRng0 [10, 20, 30, 255]).1 :=
  ⟨cRng0_valid, by decide,
    claim_C1_texture_zero_amended cRng0 [10, 20, 30, 255] cRng0_valid (by decide)⟩

theorem claim_C3_witness :
    (0 : ℚ) ≤ 1 ∧ cRng0.Valid ∧
    SharedNoise 1 0 [10, 20, 30, 255]
      (noiseLoop 1 cRng0 0 [10, 20, 30, 255]).1 :=
  ⟨zero_le_one, cRng0_valid,
    claim_C3_noise_shape_amended 1 cRng0 [10, 20, 30, 255] zero_le_one cRng0_valid⟩

/-- A minimal resolved config declaring a given export format. -/
def sampleConfig (fmt : ExportFormat) : OverlayConfig :=
  { text := "p", fontFamily := "Arial", fontSize := 12, color := "#FFFFFF",
    x := 0, y := 0, rotation := 0, batchNumber := none, showDate := none,
    textureIntensity := none, exportFormat := some fmt, upscaleFactor := some 1,
    opacity := some (3/100) }

/-- A minimal persisted variant declaring a given export format. -/
def sampleVariant (fmt : ExportFormat) : ImageVariant :=
  { id := "cloaked-1700000000000-0", dataUrl := "d", blobUrl := some "d",
    config := sampleConfig fmt, detectedPrice := none, detectedShipping := none,
    status := .pending, errorMessage := none, timestamp := some 0, tags := none }

theorem claim_C8_witness :
    ((sampleVariant .png).config.exportFormat = some ExportFormat.png ∧
      csvFilename (sampleVariant .png) =
        "cloaked_opt_" ++ shortIdOf (sampleVariant .png) ++ ".png" ∧
      batchDownloadFilename (sampleVariant .png) =
        "cloaked-asset-" ++ shortIdOf (sampleVariant .png) ++ ".png") ∧
    ((sampleVariant .jpeg).config.exportFormat = some ExportFormat.jpeg ∧
      csvFilename (sampleVariant .jpeg) =
        "cloaked_opt_" ++ shortIdOf (sampleVariant .jpeg) ++ ".jpg" ∧
      batchDownloadFilename (sampleVariant .jpeg) =
        "cloaked-asset-" ++ shortIdOf (sampleVariant .jpeg) ++ ".jpg") :=
  ⟨⟨rfl, ((claim_C8_export_filenames (sampleVariant .png)).1 rfl).1,
      ((claim_C8_export_filenames (sampleVariant .png)).1 rfl).2⟩,
    ⟨rfl, ((claim_C8_export_filenames (sampleVariant .jpeg)).2 rfl).1,
      ((claim_C8_export_filenames (sampleVariant .jpeg)).2 rfl).2⟩⟩
